import Mathlib

/-!
Shallow embedding of `src/modules.py` (neural-network building blocks for
graph/sequence models): the residual wrapper, the graph aggregation modules
(mean, max, GAT-style attention), the construction-time consistency checks,
and the features preparator.  Tensors are embedded as lists of scalars (one
list per node row), machine floats as rationals (with an explicit
infinity-carrying scalar type where the max-aggregation path manipulates
infinities, and an abstract exponential parameter where attention needs
`exp`).  The external DGL message-passing primitives (`copy_u_mean`,
`copy_u_max`, `u_add_v`, `edge_softmax`, `u_mul_e_sum`) are embedded by their
documented per-entry semantics over an explicit edge list.
-/

/-- A static graph connectivity object: a node count and a list of directed
edges `(u, v)`, an edge from source `u` to destination `v`.  Edge identity is
the position in the list, matching the per-edge tensors of the DGL ops. -/
structure Graph where
  numNodes : Nat
  edges : List (Nat × Nat)
  deriving DecidableEq, Repr

/-- The in-neighbors of node `v`: sources of the edges whose destination is
`v`, in edge-list order (with multiplicity, exactly as message passing over
the edge list sees them). -/
def Graph.inNeighbors (g : Graph) (v : Nat) : List Nat :=
  (g.edges.filter (fun e => e.2 == v)).map (fun e => e.1)

/-- Elementwise sum of a list of feature rows over a zero row of width `d`
(the tensor sum underlying the mean reduction). -/
def vecSumQ (d : Nat) (rows : List (List ℚ)) : List ℚ :=
  rows.foldr (List.zipWith (· + ·)) (List.replicate d 0)

/-- Models `dgl.ops.copy_u_mean graph x` on rows of width `d`: row `v` is the
elementwise arithmetic mean of the feature rows of the in-neighbors of `v`.
For a node with no in-neighbors the primitive fills the row with zeros; in
`ℚ` the division of the zero sum by the zero degree also yields zero, so no
separate case is needed. -/
def copy_u_mean (g : Graph) (x : Nat → List ℚ) (d v : Nat) : List ℚ :=
  (vecSumQ d ((g.inNeighbors v).map x)).map
    (fun q => q / ((g.inNeighbors v).length : ℚ))

/-- `GraphMeanAggregationModule.forward` from `src/modules.py`:
`x_aggregated = ops.copy_u_mean(graph, x)` followed by
`torch.cat([x, x_aggregated], axis=-1)`, per node row. -/
def GraphMeanAggregationModule.forward (g : Graph) (x : Nat → List ℚ) (d v : Nat) : List ℚ :=
  x v ++ copy_u_mean g x d v

/-- Scalar values flowing through the max-aggregation path: a machine float
abstracted as either a finite rational or one of the two infinities.  (No
`NaN` constructor: the max reduction over such values never produces one.) -/
inductive MVal where
  | negInf
  | fin (q : ℚ)
  | posInf
  deriving DecidableEq, Repr

/-- Elementwise maximum on the infinity-carrying scalars, with the usual
float ordering `negInf < fin _ < posInf`. -/
def MVal.max : MVal → MVal → MVal
  | .posInf, _ => .posInf
  | _, .posInf => .posInf
  | .negInf, b => b
  | a, .negInf => a
  | .fin a, .fin b => .fin (Max.max a b)

/-- Models `torch.isinf`: true on both positive and negative infinity. -/
def MVal.isinf : MVal → Bool
  | .fin _ => false
  | _ => true

/-- Models the effect of the in-place update
`x_aggregated[x_aggregated.isinf()] = 0` on one scalar entry. -/
def MVal.zeroIfInf (m : MVal) : MVal :=
  if m.isinf then .fin 0 else m

/-- Models `dgl.ops.copy_u_max graph x` on rows of width `d`: the elementwise
maximum over the incoming messages, folded over the negative-infinity-filled
row the primitive starts from, so a node with no in-neighbors keeps the
`negInf` sentinel in every column. -/
def copy_u_max (g : Graph) (x : Nat → List MVal) (d v : Nat) : List MVal :=
  ((g.inNeighbors v).map x).foldr (List.zipWith MVal.max) (List.replicate d .negInf)

/-- `GraphMaxAggregationModule.forward` from `src/modules.py`:
`x_aggregated = ops.copy_u_max(graph, x)`, then
`x_aggregated[x_aggregated.isinf()] = 0` (applied to the aggregated tensor
only), then `torch.cat([x, x_aggregated], axis=-1)`, per node row. -/
def GraphMaxAggregationModule.forward (g : Graph) (x : Nat → List MVal) (d v : Nat) : List MVal :=
  x v ++ (copy_u_max g x d v).map MVal.zeroIfInf

/-- A sub-module handed to `ResidualModulesWrapper`: its forward either
declares a `graph` parameter or does not, which is exactly the distinction
the wrapper inspects via `signature(module.forward).parameters`. -/
inductive WrappedModule (T : Type) where
  | withGraph (f : Graph → T → T)
  | plain (f : T → T)

/-- The `takes_graph_as_input` flag the wrapper computes once at
construction: whether the forward signature declares a `graph` parameter. -/
def WrappedModule.takes_graph_as_input : WrappedModule T → Bool
  | .withGraph _ => true
  | .plain _ => false

/-- `ResidualModulesWrapper` state: the stored `nn.ModuleList` of wrapped
sub-modules (their per-module graph flag is determined by their variant). -/
structure ResidualModulesWrapper (T : Type) where
  wrapped_modules : List (WrappedModule T)

/-- `ResidualModulesWrapper.__init__`: a bare module (`isinstance(modules,
nn.Module)`) is normalized to the singleton list before being stored. -/
def ResidualModulesWrapper.init (ms : Sum (WrappedModule T) (List (WrappedModule T))) :
    ResidualModulesWrapper T :=
  match ms with
  | .inl m => ⟨[m]⟩
  | .inr l => ⟨l⟩

/-- `ResidualModulesWrapper.forward(graph, x)`: thread `x_res` through the
stored modules in order, calling `module(graph, x_res)` exactly when the
module's `takes_graph_as_input` flag is set (which coincides with its
variant), then return `x + x_res`. -/
def ResidualModulesWrapper.forward [Add T] (w : ResidualModulesWrapper T)
    (graph : Graph) (x : T) : T :=
  let x_res := w.wrapped_modules.foldl
    (fun x_res m =>
      match m with
      | .withGraph f => f graph x_res
      | .plain f => f x_res) x
  x + x_res

/-- Manual chaining as the specification words it: run the sub-modules in
list order, routing the graph argument only to the graph-aware ones (written
as direct recursion, independently of the wrapper's stored state). -/
def manualChain (mods : List (WrappedModule T)) (graph : Graph) (x : T) : T :=
  match mods with
  | [] => x
  | .withGraph f :: rest => manualChain rest graph (f graph x)
  | .plain f :: rest => manualChain rest graph (f x)

/-! ### GAT-style attention aggregation (`GraphAttnGATAggregationModule`)

The scalar type is an arbitrary linear ordered field with the exponential of
the softmax supplied as an explicit parameter `expf` (instantiated with the
real exponential for the actual module). -/

/-- Dot product of two rows: one output entry of a linear layer. -/
def dotProd {K : Type} [LinearOrderedField K] (a b : List K) : K :=
  (List.zipWith (· * ·) a b).sum

/-- `nn.Linear` without bias: the weight-matrix rows dotted with the input. -/
def linNoBias {K : Type} [LinearOrderedField K] (W : List (List K)) (x : List K) : List K :=
  W.map (fun r => dotProd r x)

/-- `nn.Linear` with bias. -/
def linBias {K : Type} [LinearOrderedField K] (W : List (List K)) (b : List K)
    (x : List K) : List K :=
  List.zipWith (· + ·) (linNoBias W x) b

/-- `nn.LeakyReLU(negative_slope=0.2)` on one scalar (`0.2 = 1/5`). -/
def leakyReLU02 {K : Type} [LinearOrderedField K] (s : K) : K :=
  if s < 0 then s / 5 else s

/-- The incoming edges of `v` decorated with their edge-list index: pairs
`(edge index, source node)` for every edge whose destination is `v`, in
edge-list order. -/
def inEdgesIdx (g : Graph) (v : Nat) : List (Nat × Nat) :=
  (((List.range g.edges.length).map (fun i => (i, g.edges.getD i (0, 0)))).filter
    (fun p => p.2.2 == v)).map (fun p => (p.1, p.2.1))

/-- Source node of the edge stored at index `i`. -/
def edgeSrc (g : Graph) (i : Nat) : Nat := (g.edges.getD i (0, 0)).1

/-- Destination node of the edge stored at index `i`. -/
def edgeDst (g : Graph) (i : Nat) : Nat := (g.edges.getD i (0, 0)).2

/-- The per-edge per-head attention scores of
`GraphAttnGATAggregationModule.forward`: `ops.u_add_v(graph, attn_scores_u,
attn_scores_v)` followed by the LeakyReLU activation, where
`attn_scores_u = attn_linear_u(x)` (weights `Wu`, bias `bu`) and
`attn_scores_v = attn_linear_v(x)` (weights `Wv`, no bias). -/
def gatScores {K : Type} [LinearOrderedField K] (Wu : List (List K)) (bu : List K)
    (Wv : List (List K)) (g : Graph) (x : Nat → List K) (i : Nat) : List K :=
  (List.zipWith (· + ·) (linBias Wu bu (x (edgeSrc g i)))
    (linNoBias Wv (x (edgeDst g i)))).map leakyReLU02

/-- Models `dgl.ops.edge_softmax graph scores` at edge index `i`, head `h`:
the scores of the edges sharing the destination of `i` are normalized by
softmax over that group of incoming edges. -/
def edge_softmax {K : Type} [LinearOrderedField K] (expf : K → K) (g : Graph)
    (scores : Nat → List K) (i h : Nat) : K :=
  expf ((scores i).getD h 0) /
    ((inEdgesIdx g (edgeDst g i)).map (fun p => expf ((scores p.1).getD h 0))).sum

/-- Models `x.reshape(-1, head_dim, num_heads)` on one row of width
`head_dim * num_heads` (row-major): entry `(i, h)` is `row[i * num_heads + h]`. -/
def reshapeHeadsLast {K : Type} [LinearOrderedField K] (H hd : Nat) (row : List K) :
    List (List K) :=
  (List.range hd).map (fun i => (List.range H).map (fun h => row.getD (i * H + h) 0))

/-- Models `dgl.ops.u_mul_e_sum graph xr p` where the per-node values have
shape `(hd, H)` and the per-edge values shape `(H,)` (numpy broadcasting over
the trailing axis): entry `(i, h)` at destination `v` is the sum over its
incoming edges of `xr(u)[i][h] * p(e)[h]`. -/
def u_mul_e_sum {K : Type} [LinearOrderedField K] (g : Graph) (xr : Nat → List (List K))
    (p : Nat → List K) (hd H : Nat) (v : Nat) : List (List K) :=
  (List.range hd).map (fun i => (List.range H).map (fun h =>
    ((inEdgesIdx g v).map (fun t => ((xr t.2).getD i []).getD h 0 * (p t.1).getD h 0)).sum))

/-- Models `x_aggregated.reshape(-1, dim)` on one `(hd, H)`-shaped value
(row-major): entry `j` is `m[j / H][j % H]`. -/
def reshapeHeadsBack {K : Type} [LinearOrderedField K] (H dim : Nat)
    (m : List (List K)) : List K :=
  (List.range dim).map (fun j => (m.getD (j / H) []).getD (j % H) 0)

/-- The aggregated half computed by `GraphAttnGATAggregationModule.forward`:
scores, edge-softmax probabilities, reshape to `(head_dim, num_heads)`,
`u_mul_e_sum`, reshape back to `dim`. -/
def gatAggRow {K : Type} [LinearOrderedField K] (expf : K → K) (Wu : List (List K))
    (bu : List K) (Wv : List (List K)) (g : Graph) (x : Nat → List K)
    (dim H : Nat) (v : Nat) : List K :=
  let scores := gatScores Wu bu Wv g x
  let probs := fun i => (List.range H).map (edge_softmax expf g scores i)
  reshapeHeadsBack H dim
    (u_mul_e_sum g (fun u => reshapeHeadsLast H (dim / H) (x u)) probs (dim / H) H v)

/-- A PyTorch tensor value as seen on the feature axes: a 2-d tensor (one
feature row per node) or a 3-d tensor (one feature matrix per node).
`torch.cat` distinguishes the two by their number of dimensions. -/
inductive TorchVal (K : Type) where
  | t2 (rows : Nat → List K)
  | t3 (rows : Nat → List (List K))

/-- The `RuntimeError` of `torch.cat` on tensors whose numbers of dimensions
differ (the fixed prefix stands for the interpolated message). -/
def catDimMismatchMsg : String :=
  "torch.cat: tensors must have the same number of dimensions"

/-- Models `torch.cat([a, b], axis=-1)`: concatenation along the trailing
axis, per node row, when the two tensors have the same number of
dimensions; a `RuntimeError` when the dimension counts differ. -/
def torch_cat_lastdim {K : Type} : TorchVal K → TorchVal K → Except String (TorchVal K)
  | .t2 a, .t2 b => .ok (.t2 (fun v => a v ++ b v))
  | .t3 a, .t3 b => .ok (.t3 (fun v => List.zipWith (· ++ ·) (a v) (b v)))
  | _, _ => .error catDimMismatchMsg

/-- `GraphAttnGATAggregationModule.forward` from `src/modules.py:89-102`:
scores, edge-softmax probabilities and the aggregated tensor are computed,
but line 96 rebinds `x` to the reshaped 3-d `(head_dim, num_heads)` tensor
and never restores it, so the final `torch.cat([x, x_aggregated], axis=-1)`
at line 100 concatenates that 3-d tensor with the 2-d `x_aggregated` and
raises a `RuntimeError` on every invocation. -/
def GraphAttnGATAggregationModule.forward {K : Type} [LinearOrderedField K] (expf : K → K)
    (Wu : List (List K)) (bu : List K) (Wv : List (List K)) (g : Graph)
    (x : Nat → List K) (dim H : Nat) : Except String (TorchVal K) :=
  torch_cat_lastdim
    (.t3 (fun u => reshapeHeadsLast H (dim / H) (x u)))
    (.t2 (fun v => gatAggRow expf Wu bu Wv g x dim H v))

/-! ### Construction-time consistency checks -/

/-- Modelled from the spec: `_check_dim_and_num_heads_consistency` is defined
in `utils.py`, which is not among the provided sources; per the spec it must
fail with a configuration error exactly when `dim` is not evenly divisible
by `num_heads`. -/
def check_dim_and_num_heads_consistency (dim num_heads : Nat) : Except String Unit :=
  if dim % num_heads = 0 then .ok ()
  else .error "dim is not evenly divisible by num_heads"

/-- Construction-time state of `GraphAttnGATAggregationModule.__init__`
relevant to the divisibility claim. -/
structure GATModuleState where
  dim : Nat
  num_heads : Nat
  head_dim : Nat

/-- `GraphAttnGATAggregationModule.__init__`: runs the consistency check,
then stores `dim`, `num_heads` and `head_dim = dim // num_heads`. -/
def GraphAttnGATAggregationModule.init (dim num_heads : Nat) :
    Except String GATModuleState :=
  match check_dim_and_num_heads_consistency dim num_heads with
  | .error e => .error e
  | .ok _ => .ok ⟨dim, num_heads, dim / num_heads⟩

/-- Construction-time state of `GraphAttnTrfAggregationModule.__init__`
relevant to the divisibility claim. -/
structure TrfModuleState where
  dim : Nat
  num_heads : Nat
  head_dim : Nat
  dropout : ℚ

/-- `GraphAttnTrfAggregationModule.__init__`: consistency check first. -/
def GraphAttnTrfAggregationModule.init (dim num_heads : Nat) (dropout : ℚ) :
    Except String TrfModuleState :=
  match check_dim_and_num_heads_consistency dim num_heads with
  | .error e => .error e
  | .ok _ => .ok ⟨dim, num_heads, dim / num_heads, dropout⟩

/-- Construction-time state of `TransformerSequenceEncoderModule.__init__`
relevant to the divisibility claim. -/
structure TransformerSequenceEncoderState where
  num_layers : Nat
  dim : Nat
  num_heads : Nat
  seq_len : Nat
  bidir_attn : Bool

/-- `TransformerSequenceEncoderModule.__init__`: consistency check first. -/
def TransformerSequenceEncoderModule.init (num_layers dim num_heads seq_len : Nat)
    (bidir_attn : Bool) : Except String TransformerSequenceEncoderState :=
  match check_dim_and_num_heads_consistency dim num_heads with
  | .error e => .error e
  | .ok _ => .ok ⟨num_layers, dim, num_heads, seq_len, bidir_attn⟩

/-- Whether an `Except`-modelled construction succeeded (did not raise). -/
def exceptIsOk {ε α : Type} : Except ε α → Bool
  | .ok _ => true
  | .error _ => false

/-! ### Features preparator (`FeaturesPreparatorForDeepModels`) -/

/-- A 2-d tensor given by its shape and an entry function (the claims only
observe shapes and whole rows). -/
structure Tensor2 where
  rows : Nat
  cols : Nat
  entry : Nat → Nat → ℚ

/-- Row `v` of a 2-d tensor, as a list of length `cols`. -/
def Tensor2.row (t : Tensor2) (v : Nat) : List ℚ :=
  (List.range t.cols).map (t.entry v)

/-- Models a freshly (randomly) initialized `nn.Embedding` weight matrix; the
claims never observe its values, only its shape. -/
def freshEmbedding (num_nodes dim : Nat) : Tensor2 :=
  ⟨num_nodes, dim, fun _ _ => 0⟩

/-- Modelled from the spec: `PLREmbeddings` is defined in
`plr_embeddings.py`, which is not among the provided sources.  The spec
fixes its interface: `forward(x: [..., F]) -> [..., F, embedding_dim]`,
expanding each scalar feature into an `embedding_dim`-length learned vector,
configured by a frequency count, a frequency scale and two sharing flags.
The learned per-feature scalar-to-vector map is abstracted as `emb`. -/
structure PLREmbeddings where
  features_dim : Nat
  frequencies_dim : Nat
  frequencies_scale : ℚ
  embedding_dim : Nat
  shared_linear : Bool
  shared_frequencies : Bool
  emb : Nat → ℚ → Nat → ℚ

instance : Inhabited PLREmbeddings :=
  ⟨⟨0, 0, 0, 0, false, false, fun _ _ _ => 0⟩⟩

instance : Inhabited Tensor2 := ⟨⟨0, 0, fun _ _ => 0⟩⟩

/-- Modelled from the spec: the PLR forward on one feature row — scalar
`x[i]` becomes the `embedding_dim`-length vector `emb i x[i]`. -/
def PLREmbeddings.forward (p : PLREmbeddings) (x : List ℚ) : List (List ℚ) :=
  (List.range x.length).map (fun i =>
    (List.range p.embedding_dim).map (p.emb i (x.getD i 0)))

/-- Boolean-mask selection along the feature axis: `x[..., mask]` for a mask
of the same length. -/
def maskSelect {α : Type} (x : List α) (mask : List Bool) : List α :=
  ((x.zip mask).filter (fun p => p.2)).map (fun p => p.1)

/-- `~mask`. -/
def notMask (mask : List Bool) : List Bool := mask.map (fun b => !b)

/-- `mask.sum()` on a boolean tensor: the number of `true` entries. -/
def countTrue (mask : List Bool) : Nat := mask.countP (fun b => b)

/-- Whether two boolean masks select disjoint column sets. -/
def masksDisjoint (m1 m2 : List Bool) : Bool :=
  (m1.zip m2).all (fun p => !(p.1 && p.2))

/-- The keyword arguments of `FeaturesPreparatorForDeepModels.__init__`,
plus the two abstract learned PLR maps standing for the randomly
initialized parameters of the two `PLREmbeddings` sub-modules. -/
structure FeatPrepArgs where
  features_dim : Nat
  use_learnable_node_embeddings : Bool
  num_nodes : Nat
  learnable_node_embeddings_dim : Nat
  initialize_learnable_node_embeddings_with_deepwalk : Bool
  deepwalk_node_embeddings : Tensor2
  use_plr_for_num_features : Bool
  num_features_mask : List Bool
  plr_num_features_frequencies_dim : Nat
  plr_num_features_frequencies_scale : ℚ
  plr_num_features_embedding_dim : Nat
  plr_num_features_shared_linear : Bool
  plr_num_features_shared_frequencies : Bool
  use_plr_for_past_targets : Bool
  past_targets_mask : List Bool
  plr_past_targets_frequencies_dim : Nat
  plr_past_targets_frequencies_scale : ℚ
  plr_past_targets_embedding_dim : Nat
  plr_past_targets_shared_linear : Bool
  plr_past_targets_shared_frequencies : Bool
  plrNumParams : Nat → ℚ → Nat → ℚ
  plrPastParams : Nat → ℚ → Nat → ℚ

/-- Module state built by `FeaturesPreparatorForDeepModels.__init__` (the
`use_plr_for_past_targtes` field keeps the source's spelling); attributes
the source only sets under a flag are `Option`s, `none` when unset, and the
mask buffers are `[]` when not registered. -/
structure FeaturesPreparatorForDeepModels where
  use_learnable_node_embeddings : Bool
  node_embeddings : Option Tensor2
  use_plr_for_num_features : Bool
  plr_embeddings_num_features : Option PLREmbeddings
  num_features_mask : List Bool
  use_plr_for_past_targtes : Bool
  plr_embeddings_past_targets : Option PLREmbeddings
  past_targets_mask : List Bool
  output_dim : Int

/-- The `ValueError` message of the DeepWalk dimension check (the source
interpolates the two dimensions; the fixed prefix stands for it here). -/
def deepwalkDimMismatchMsg : String :=
  "initialize_learnable_node_embeddings_with_deepwalk argument is True, but the value of learnable_node_embeddings_dim argument does not match the dimension of the precomputed DeepWalk node embeddings"

/-- `FeaturesPreparatorForDeepModels.__init__`: accumulate `output_dim`
starting from `features_dim`; optionally create the learnable node
embeddings (checking the DeepWalk dimension and raising on mismatch);
optionally create the numeric-feature PLR module and register the numeric
mask; optionally create the past-target PLR module and register the
past-target mask, recomputed against the post-PLR layout (embedded numeric
block first, then the remaining columns) when the numeric PLR is active.
The constructor's sole `raise` is hoisted into a top-level guard (it fires
before any later state matters); the state below accumulates `output_dim`
in the source's order: node embeddings, then numeric PLR, then past-target
PLR. -/
def FeaturesPreparatorForDeepModels.init (a : FeatPrepArgs) :
    Except String FeaturesPreparatorForDeepModels :=
  if a.use_learnable_node_embeddings = true ∧
      a.initialize_learnable_node_embeddings_with_deepwalk = true ∧
      a.learnable_node_embeddings_dim ≠ a.deepwalk_node_embeddings.cols then
    .error deepwalkDimMismatchMsg
  else
    let num_features_dim := countTrue a.num_features_mask
    let past_targets_dim := countTrue a.past_targets_mask
    let output_dim_emb : Int := (a.features_dim : Int) +
      (if a.use_learnable_node_embeddings then (a.learnable_node_embeddings_dim : Int) else 0)
    let output_dim_num : Int :=
      if a.use_plr_for_num_features then
        output_dim_emb - (num_features_dim : Int) +
          (num_features_dim : Int) * (a.plr_num_features_embedding_dim : Int)
      else output_dim_emb
    let output_dim_past : Int :=
      if a.use_plr_for_past_targets then
        output_dim_num - (past_targets_dim : Int) +
          (past_targets_dim : Int) * (a.plr_past_targets_embedding_dim : Int)
      else output_dim_num
    .ok
      ⟨a.use_learnable_node_embeddings,
       (if a.use_learnable_node_embeddings then
          (if a.initialize_learnable_node_embeddings_with_deepwalk then
            some a.deepwalk_node_embeddings
          else some (freshEmbedding a.num_nodes a.learnable_node_embeddings_dim))
        else none),
       a.use_plr_for_num_features,
       (if a.use_plr_for_num_features then
          some ⟨num_features_dim, a.plr_num_features_frequencies_dim,
                a.plr_num_features_frequencies_scale, a.plr_num_features_embedding_dim,
                a.plr_num_features_shared_linear, a.plr_num_features_shared_frequencies,
                a.plrNumParams⟩
        else none),
       (if a.use_plr_for_num_features then a.num_features_mask else []),
       a.use_plr_for_past_targets,
       (if a.use_plr_for_past_targets then
          some ⟨past_targets_dim, a.plr_past_targets_frequencies_dim,
                a.plr_past_targets_frequencies_scale, a.plr_past_targets_embedding_dim,
                a.plr_past_targets_shared_linear, a.plr_past_targets_shared_frequencies,
                a.plrPastParams⟩
        else none),
       (if a.use_plr_for_past_targets then
          (if a.use_plr_for_num_features then
            List.replicate (num_features_dim * a.plr_num_features_embedding_dim) false ++
              maskSelect a.past_targets_mask (notMask a.num_features_mask)
          else a.past_targets_mask)
        else []),
       output_dim_past⟩

/-- `FeaturesPreparatorForDeepModels.forward` on one feature row `x` (the
trailing feature axis) of the node with index `node`: PLR-replace the
numeric columns (embedded block first, remaining columns after), then the
past-target columns against the stored (shifted) mask, then append that
node's learnable-embedding row.  The graph-batch repetition and the
sequence broadcast of the source only shape the leading axes, not the
feature axis modelled here. -/
def FeaturesPreparatorForDeepModels.forward (m : FeaturesPreparatorForDeepModels)
    (x : List ℚ) (node : Nat) : List ℚ :=
  let x1 :=
    if m.use_plr_for_num_features then
      ((m.plr_embeddings_num_features.getD default).forward
          (maskSelect x m.num_features_mask)).flatten ++
        maskSelect x (notMask m.num_features_mask)
    else x
  let x2 :=
    if m.use_plr_for_past_targtes then
      ((m.plr_embeddings_past_targets.getD default).forward
          (maskSelect x1 m.past_targets_mask)).flatten ++
        maskSelect x1 (notMask m.past_targets_mask)
    else x1
  if m.use_learnable_node_embeddings then
    x2 ++ (m.node_embeddings.getD default).row node
  else x2

/-- A features-preparator configuration whose two masks overlap on column 0
(`num_features_mask = past_targets_mask = [true]`, `features_dim = 1`,
numeric embedding dim 1, past-target embedding dim 2, no node embeddings):
construction succeeds, `output_dim = 2`, but the overlapping column is
dropped from the shifted past mask, so `forward` outputs width 1. -/
def featPrepOverlapArgs : FeatPrepArgs :=
  ⟨1, false, 0, 0, false, default,
   true, [true], 0, 0, 1, false, false,
   true, [true], 0, 0, 2, false, false,
   fun _ _ _ => 0, fun _ _ _ => 0⟩

/-- Witness configuration for C3: `features_dim = 2`, numeric PLR on column 0
with embedding dim 3, no past-target PLR, no node embeddings. -/
def featPrepC3Args : FeatPrepArgs :=
  ⟨2, false, 0, 0, false, default,
   true, [true, false], 0, 0, 3, false, false,
   false, [false, false], 0, 0, 0, false, false,
   fun _ _ _ => 0, fun _ _ _ => 0⟩

/-- The state `featPrepC3Args` constructs. -/
def featPrepC3State : FeaturesPreparatorForDeepModels :=
  ⟨false, none, true, some ⟨1, 0, 0, 3, false, false, fun _ _ _ => 0⟩,
   [true, false], false, none, [], 4⟩

/-- Witness configuration for C4: `features_dim = 2`, numeric mask
`[true, false]`, past mask `[false, true]` (disjoint), both embedding dims 1,
no node embeddings. -/
def featPrepC4Args : FeatPrepArgs :=
  ⟨2, false, 0, 0, false, default,
   true, [true, false], 0, 0, 1, false, false,
   true, [false, true], 0, 0, 1, false, false,
   fun _ _ _ => 0, fun _ _ _ => 0⟩

/-- The state `featPrepC4Args` constructs: the stored past-target mask is
`[false] ++ [true]`, the shifted layout. -/
def featPrepC4State : FeaturesPreparatorForDeepModels :=
  ⟨false, none, true, some ⟨1, 0, 0, 1, false, false, fun _ _ _ => 0⟩,
   [true, false], true, some ⟨1, 0, 0, 1, false, false, fun _ _ _ => 0⟩,
   [false, true], 2⟩

/-- Witness configuration for C8: learnable node embeddings of dim 3
initialized from a precomputed DeepWalk matrix of width 4 — a mismatch. -/
def featPrepC8Args : FeatPrepArgs :=
  ⟨1, true, 2, 3, true, ⟨2, 4, fun _ _ => 0⟩,
   false, [], 0, 0, 0, false, false,
   false, [], 0, 0, 0, false, false,
   fun _ _ _ => 0, fun _ _ _ => 0⟩

/-! ### Helper lemmas -/

theorem getD_range_map {α : Type} (f : Nat → α) (n j : Nat) (d : α) (h : j < n) :
    ((List.range n).map f).getD j d = f j := by
  have hl : j < ((List.range n).map f).length := by simpa using h
  rw [List.getD_eq_getElem _ _ hl]
  simp

theorem getD_replicate' {α : Type} (a d : α) (n j : Nat) (h : j < n) :
    (List.replicate n a).getD j d = a := by
  have hl : j < (List.replicate n a).length := by simpa using h
  rw [List.getD_eq_getElem _ _ hl, List.getElem_replicate]

theorem getD_zipWith_of_lt {α : Type} (f : α → α → α) (d0 : α) (as bs : List α)
    (j : Nat) (ha : j < as.length) (hb : j < bs.length) :
    (List.zipWith f as bs).getD j d0 = f (as.getD j d0) (bs.getD j d0) := by
  induction as generalizing bs j with
  | nil => simp at ha
  | cons a as ih =>
    cases bs with
    | nil => simp at hb
    | cons b bs =>
      cases j with
      | zero => rfl
      | succ j => simpa using ih bs j (by simpa using ha) (by simpa using hb)

theorem getD_map_of_lt {α β : Type} (f : α → β) (l : List α) (j : Nat) (d : β) (d0 : α)
    (h : j < l.length) :
    (l.map f).getD j d = f (l.getD j d0) := by
  induction l generalizing j with
  | nil => simp at h
  | cons a l ih =>
    cases j with
    | zero => rfl
    | succ j => simpa using ih j (by simpa using h)

theorem foldr_zipWith_length {α : Type} (f : α → α → α) (z : List α)
    (rows : List (List α)) (h : ∀ r ∈ rows, r.length = z.length) :
    (rows.foldr (List.zipWith f) z).length = z.length := by
  induction rows with
  | nil => rfl
  | cons r rs ih =>
    have hr : r.length = z.length := h r (List.mem_cons_self r rs)
    have ht := ih (fun s hs => h s (List.mem_cons_of_mem r hs))
    show (List.zipWith f r (rs.foldr (List.zipWith f) z)).length = z.length
    rw [List.length_zipWith, hr, ht, min_self]

theorem foldr_zipWith_getD {α : Type} (f : α → α → α) (d0 : α) (z : List α)
    (rows : List (List α)) (j : Nat) (h : ∀ r ∈ rows, r.length = z.length)
    (hj : j < z.length) :
    (rows.foldr (List.zipWith f) z).getD j d0 =
      rows.foldr (fun r acc => f (r.getD j d0) acc) (z.getD j d0) := by
  induction rows with
  | nil => rfl
  | cons r rs ih =>
    have hr : r.length = z.length := h r (List.mem_cons_self r rs)
    have htl : ∀ s ∈ rs, s.length = z.length := fun s hs => h s (List.mem_cons_of_mem r hs)
    have ht : (rs.foldr (List.zipWith f) z).length = z.length := foldr_zipWith_length f z rs htl
    show (List.zipWith f r (rs.foldr (List.zipWith f) z)).getD j d0 = _
    rw [getD_zipWith_of_lt f d0 r (rs.foldr (List.zipWith f) z) j (by omega) (by omega),
      ih htl, List.foldr_cons]

theorem vecSumQ_getD (d : Nat) (rows : List (List ℚ)) (j : Nat)
    (h : ∀ r ∈ rows, r.length = d) (hj : j < d) :
    (vecSumQ d rows).getD j 0 = (rows.map (fun r => r.getD j 0)).sum := by
  unfold vecSumQ
  rw [foldr_zipWith_getD (· + ·) 0 (List.replicate d 0) rows j (by simpa using h) (by simpa using hj)]
  rw [getD_replicate' _ _ _ _ hj, List.sum_eq_foldr, List.foldr_map]

theorem getD_map_zeroIfInf (l : List MVal) (j : Nat) :
    (l.map MVal.zeroIfInf).getD j (.fin 0) = (l.getD j (.fin 0)).zeroIfInf := by
  by_cases h : j < l.length
  · have h2 : j < (l.map MVal.zeroIfInf).length := by simpa using h
    rw [List.getD_eq_getElem _ _ h2, List.getD_eq_getElem _ _ h, List.getElem_map]
  · rw [List.getD_eq_default _ _ (by simpa using Nat.le_of_not_lt h),
      List.getD_eq_default _ _ (Nat.le_of_not_lt h)]
    rfl

theorem manualChain_eq_foldl {T : Type} (mods : List (WrappedModule T)) (g : Graph) (x : T) :
    mods.foldl
      (fun x_res m =>
        match m with
        | .withGraph f => f g x_res
        | .plain f => f x_res) x = manualChain mods g x := by
  induction mods generalizing x with
  | nil => rfl
  | cons m rest ih =>
    cases m with
    | withGraph f => simpa [manualChain] using ih (f g x)
    | plain f => simpa [manualChain] using ih (f x)

/-! ### Claim theorems: residual wrapper and mean/max aggregation -/

/-- C1: for every graph `g`, input `x` and list of wrapped sub-modules,
`ResidualModulesWrapper.forward(g, x)` returns `x + x_res`, where `x_res`
threads `x` through the sub-modules in list order with the graph passed
exactly to the graph-aware ones — equal to manually chaining the sub-modules
with the graph routed only to those, and adding the original input. -/
theorem C1_residual_wrapper_forward {T : Type} [Add T]
    (mods : List (WrappedModule T)) (g : Graph) (x : T) :
    (ResidualModulesWrapper.init (.inr mods)).forward g x = x + manualChain mods g x := by
  show x + _ = x + _
  rw [manualChain_eq_foldl]
  rfl

/-- Witness for C1 at a concrete wrapper over `ℚ` holding one graph-aware and
one graph-agnostic module. -/
theorem C1_residual_wrapper_forward_witness :
    (ResidualModulesWrapper.init (.inr
      [WrappedModule.withGraph (fun g q => q + (g.numNodes : ℚ)),
       WrappedModule.plain (fun q => q * 2)])).forward ⟨3, [(0, 1)]⟩ (5 : ℚ) =
      5 + manualChain
        [WrappedModule.withGraph (fun g q => q + (g.numNodes : ℚ)),
         WrappedModule.plain (fun q => q * 2)] ⟨3, [(0, 1)]⟩ 5 :=
  C1_residual_wrapper_forward _ _ _

/-- C9: a wrapper constructed from a bare module `m` behaves exactly like the
wrapper constructed from the one-element list `[m]`: the constructor
normalizes the bare module to a singleton list. -/
theorem C9_bare_module_normalized {T : Type} [Add T] (m : WrappedModule T)
    (g : Graph) (x : T) :
    (ResidualModulesWrapper.init (.inl m)).forward g x =
      (ResidualModulesWrapper.init (.inr [m])).forward g x := rfl

/-- Witness for C9 at a concrete module over `ℚ`. -/
theorem C9_bare_module_normalized_witness :
    (ResidualModulesWrapper.init (.inl (WrappedModule.plain (fun q => q + 7)))).forward
        ⟨1, []⟩ (2 : ℚ) =
      (ResidualModulesWrapper.init (.inr [WrappedModule.plain (fun q => q + 7)])).forward
        ⟨1, []⟩ 2 :=
  C9_bare_module_normalized _ _ _

/-- C5: for a finite input tensor, the aggregated half of the max-aggregation
output row of a node with no incoming edges is all zeros (the `negInf`
sentinel rows of the reduction are zeroed before concatenation). -/
theorem C5_max_isolated_node_zero (g : Graph) (x : Nat → List MVal) (d v j : Nat)
    (hiso : g.inNeighbors v = [])
    (hfin : ∀ u i, ((x u).getD i (.fin 0)).isinf = false)
    (hlen : (x v).length = d) (hj : j < d) :
    (GraphMaxAggregationModule.forward g x d v).getD (d + j) (.fin 0) = .fin 0 := by
  unfold GraphMaxAggregationModule.forward copy_u_max
  rw [hiso]
  simp only [List.map_nil, List.foldr_nil, List.map_replicate]
  rw [List.getD_append_right _ _ _ _ (by omega : (x v).length ≤ d + j), hlen]
  rw [show d + j - d = j by omega, getD_replicate' _ _ _ _ hj]
  rfl

/-- Witness for C5: node 1 has no incoming edge in the one-edge graph. -/
theorem C5_max_isolated_node_zero_witness :
    Graph.inNeighbors ⟨2, [(1, 0)]⟩ 1 = [] ∧
    (GraphMaxAggregationModule.forward ⟨2, [(1, 0)]⟩
        (fun _ => [.fin 3, .fin 2]) 2 1).getD (2 + 0) (.fin 0) = .fin 0 :=
  ⟨by decide,
   C5_max_isolated_node_zero _ _ 2 1 0 (by decide)
     (fun u i => by
       match i with
       | 0 => rfl
       | 1 => rfl
       | (n + 2) => rfl)
     rfl (by decide)⟩

/-- C6: mean aggregation concatenates, after the unchanged input row of width
`d`, the elementwise arithmetic mean of the in-neighbor rows (so the output
width is `2 * d`); for a node with in-neighbor rows `[a, b, c]` the
aggregated entry is `(a + b + c) / 3`. -/
theorem C6_mean_aggregation (g : Graph) (x : Nat → List ℚ) (d v j : Nat)
    (hlen : ∀ u, (x u).length = d) (hj : j < d) :
    (GraphMeanAggregationModule.forward g x d v).length = 2 * d ∧
    (GraphMeanAggregationModule.forward g x d v).getD j 0 = (x v).getD j 0 ∧
    (GraphMeanAggregationModule.forward g x d v).getD (d + j) 0 =
      ((g.inNeighbors v).map (fun u => (x u).getD j 0)).sum /
        ((g.inNeighbors v).length : ℚ) ∧
    (∀ a b c : Nat, g.inNeighbors v = [a, b, c] →
      (GraphMeanAggregationModule.forward g x d v).getD (d + j) 0 =
        ((x a).getD j 0 + (x b).getD j 0 + (x c).getD j 0) / 3) := by
  have hrows : ∀ r ∈ (g.inNeighbors v).map x, r.length = (List.replicate d (0 : ℚ)).length := by
    intro r hr
    rcases List.mem_map.mp hr with ⟨u, _, rfl⟩
    simpa using hlen u
  have hsumlen : (vecSumQ d ((g.inNeighbors v).map x)).length = d := by
    simpa using foldr_zipWith_length _ _ _ hrows
  have hcopylen : (copy_u_mean g x d v).length = d := by
    simpa [copy_u_mean] using hsumlen
  have hmid : (GraphMeanAggregationModule.forward g x d v).getD (d + j) 0 =
      ((g.inNeighbors v).map (fun u => (x u).getD j 0)).sum /
        ((g.inNeighbors v).length : ℚ) := by
    unfold GraphMeanAggregationModule.forward
    rw [List.getD_append_right _ _ _ _ (by rw [hlen v]; omega), hlen v,
      show d + j - d = j by omega]
    unfold copy_u_mean
    rw [getD_map_of_lt _ _ j 0 0 (by omega)]
    rw [vecSumQ_getD d _ j (by simpa using hrows) hj, List.map_map]
    rfl
  refine ⟨?_, ?_, hmid, ?_⟩
  · unfold GraphMeanAggregationModule.forward
    rw [List.length_append, hlen v, hcopylen]
    omega
  · unfold GraphMeanAggregationModule.forward
    exact List.getD_append _ _ _ _ (by rw [hlen v]; omega)
  · intro a b c hins
    rw [hmid, hins]
    simp only [List.map_cons, List.map_nil, List.sum_cons, List.sum_nil, List.length_cons,
      List.length_nil]
    norm_num
    ring_nf

/-- Witness for C6: node 3 of a four-node graph has in-neighbors `[0, 1, 2]`. -/
theorem C6_mean_aggregation_witness :
    (GraphMeanAggregationModule.forward ⟨4, [(0, 3), (1, 3), (2, 3)]⟩
        (fun u => [(u : ℚ), 1]) 2 3).getD (2 + 0) 0 =
      (((fun u => [(u : ℚ), 1]) 0).getD 0 0 + ((fun u => [(u : ℚ), 1]) 1).getD 0 0 +
        ((fun u => [(u : ℚ), 1]) 2).getD 0 0) / 3 :=
  (C6_mean_aggregation ⟨4, [(0, 3), (1, 3), (2, 3)]⟩ (fun u => [(u : ℚ), 1]) 2 3 0
      (fun u => rfl) (by decide)).2.2.2 0 1 2 (by decide)

/-- C10: max aggregation zeroes every infinite entry of the aggregated tensor
(positive as well as negative infinity, not only the isolated-node sentinel
rows), and the first half of the output row is the input row unchanged. -/
theorem C10_max_zeroes_both_infinities (g : Graph) (x : Nat → List MVal) (d v j j' : Nat)
    (hlen : (x v).length = d) (hj' : j' < d) :
    (GraphMaxAggregationModule.forward g x d v).getD j' (.fin 0) = (x v).getD j' (.fin 0) ∧
    (GraphMaxAggregationModule.forward g x d v).getD (d + j) (.fin 0) =
      ((copy_u_max g x d v).getD j (.fin 0)).zeroIfInf ∧
    MVal.zeroIfInf .posInf = .fin 0 ∧ MVal.zeroIfInf .negInf = .fin 0 := by
  refine ⟨?_, ?_, rfl, rfl⟩
  · unfold GraphMaxAggregationModule.forward
    exact List.getD_append _ _ _ _ (by omega)
  · unfold GraphMaxAggregationModule.forward
    rw [List.getD_append_right _ _ _ _ (by omega), hlen,
      show d + j - d = j by omega]
    exact getD_map_zeroIfInf _ _

/-- Witness for C10: node 1 has the single in-neighbor 0 whose feature row
holds a positive infinity, and that entry is zeroed in the aggregated half. -/
theorem C10_max_zeroes_both_infinities_witness :
    ((fun u => if u = 0 then [MVal.posInf, MVal.fin 5] else [MVal.fin 1, MVal.fin 2]) 1).length = 2 ∧
    ((GraphMaxAggregationModule.forward ⟨2, [(0, 1)]⟩
        (fun u => if u = 0 then [MVal.posInf, MVal.fin 5] else [MVal.fin 1, MVal.fin 2]) 2 1).getD
          (2 + 0) (.fin 0) =
      ((copy_u_max ⟨2, [(0, 1)]⟩
        (fun u => if u = 0 then [MVal.posInf, MVal.fin 5] else [MVal.fin 1, MVal.fin 2]) 2 1).getD
          0 (.fin 0)).zeroIfInf) ∧
    (GraphMaxAggregationModule.forward ⟨2, [(0, 1)]⟩
        (fun u => if u = 0 then [MVal.posInf, MVal.fin 5] else [MVal.fin 1, MVal.fin 2]) 2 1).getD
          (2 + 0) (.fin 0) = .fin 0 :=
  ⟨by decide,
   (C10_max_zeroes_both_infinities ⟨2, [(0, 1)]⟩
      (fun u => if u = 0 then [MVal.posInf, MVal.fin 5] else [MVal.fin 1, MVal.fin 2])
      2 1 0 0 rfl (by decide)).2.1,
   by decide⟩

/-! ### GAT lemmas and claim theorems -/

theorem mem_inEdgesIdx {g : Graph} {v : Nat} {t : Nat × Nat} (h : t ∈ inEdgesIdx g v) :
    g.edges.getD t.1 (0, 0) = (t.2, v) ∧ t.1 < g.edges.length := by
  unfold inEdgesIdx at h
  rcases List.mem_map.mp h with ⟨p, hp, rfl⟩
  rcases List.mem_filter.mp hp with ⟨hpmem, hpv⟩
  rcases List.mem_map.mp hpmem with ⟨i, hi, rfl⟩
  refine ⟨?_, by simpa using List.mem_range.mp hi⟩
  have hv : (g.edges.getD i (0, 0)).2 = v := by simpa using hpv
  exact Prod.ext rfl hv

theorem gatAggRow_getD {K : Type} [LinearOrderedField K] (expf : K → K)
    (Wu : List (List K)) (bu : List K) (Wv : List (List K)) (g : Graph)
    (x : Nat → List K) (dim H v j : Nat)
    (hH : 0 < H) (hdvd : H ∣ dim) (hj : j < dim) :
    (gatAggRow expf Wu bu Wv g x dim H v).getD j 0 =
      ((inEdgesIdx g v).map (fun t =>
        edge_softmax expf g (gatScores Wu bu Wv g x) t.1 (j % H) *
          (x t.2).getD j 0)).sum := by
  have hdim : dim / H * H = dim := Nat.div_mul_cancel hdvd
  have hdivlt : j / H < dim / H := by
    rw [Nat.div_lt_iff_lt_mul hH, hdim]
    exact hj
  have hmodlt : j % H < H := Nat.mod_lt _ hH
  unfold gatAggRow reshapeHeadsBack
  rw [getD_range_map _ _ _ _ hj]
  unfold u_mul_e_sum
  rw [getD_range_map _ _ _ _ hdivlt, getD_range_map _ _ _ _ hmodlt]
  apply congrArg List.sum
  apply List.map_congr_left
  intro t _
  unfold reshapeHeadsLast
  rw [getD_range_map _ _ _ _ hdivlt, getD_range_map _ _ _ _ hmodlt, Nat.div_add_mod' j H]
  show (x t.2).getD j 0 *
      ((List.range H).map (edge_softmax expf g (gatScores Wu bu Wv g x) t.1)).getD (j % H) 0 = _
  rw [getD_range_map _ _ _ _ hmodlt]
  ring

/-- C2: code bug — `GraphAttnGATAggregationModule.forward` raises on every
invocation: `x` is rebound to the reshaped 3-d `(head_dim, num_heads)`
tensor before the final concatenation with the 2-d aggregated tensor, so
`torch.cat` fails with a dimension-count mismatch and the
concat-of-head-slices output the claim describes is never produced. -/
theorem C2_gat_forward_raises {K : Type} [LinearOrderedField K] (expf : K → K)
    (Wu : List (List K)) (bu : List K) (Wv : List (List K)) (g : Graph)
    (x : Nat → List K) (dim H : Nat) :
    GraphAttnGATAggregationModule.forward expf Wu bu Wv g x dim H =
      .error catDimMismatchMsg := rfl

/-- The failing input made concrete at the spec's end-to-end scenario: the
5-node graph with edges `0 → 1`, `1 → 2`, `2 → 0`, `3 → 4`, `dim = 4`,
`num_heads = 2`, zero weights and zero features. -/
theorem C2_gat_forward_raises_witness :
    GraphAttnGATAggregationModule.forward (fun q : ℚ => q) [[0, 0, 0, 0], [0, 0, 0, 0]]
        [0, 0] [[0, 0, 0, 0], [0, 0, 0, 0]] ⟨5, [(0, 1), (1, 2), (2, 0), (3, 4)]⟩
        (fun _ => [0, 0, 0, 0]) 4 2 = .error catDimMismatchMsg :=
  C2_gat_forward_raises _ _ _ _ _ _ _ _

/-- C7: the three attention-based modules all fail construction exactly when
`dim` is not evenly divisible by `num_heads` (for a positive head count),
and pass the divisibility check otherwise. -/
theorem C7_dim_heads_divisibility (dim num_heads num_layers seq_len : Nat)
    (dropout : ℚ) (bidir : Bool) (hpos : 0 < num_heads) :
    (exceptIsOk (GraphAttnGATAggregationModule.init dim num_heads) = true ↔
      dim % num_heads = 0) ∧
    (exceptIsOk (GraphAttnTrfAggregationModule.init dim num_heads dropout) = true ↔
      dim % num_heads = 0) ∧
    (exceptIsOk (TransformerSequenceEncoderModule.init num_layers dim num_heads seq_len
      bidir) = true ↔ dim % num_heads = 0) := by
  unfold GraphAttnGATAggregationModule.init GraphAttnTrfAggregationModule.init
    TransformerSequenceEncoderModule.init check_dim_and_num_heads_consistency
  by_cases h : dim % num_heads = 0 <;>
    simp [h, exceptIsOk, Except.bind]

/-- Witness for C7: `dim = 4` with 2 heads passes, with 3 heads every one of
the three constructions fails. -/
theorem C7_dim_heads_divisibility_witness :
    (0 < 2 ∧ (exceptIsOk (GraphAttnGATAggregationModule.init 4 2) = true ↔ 4 % 2 = 0)) ∧
    exceptIsOk (GraphAttnGATAggregationModule.init 4 3) = false ∧
    exceptIsOk (GraphAttnTrfAggregationModule.init 4 3 0) = false ∧
    exceptIsOk (TransformerSequenceEncoderModule.init 1 4 3 1 false) = false :=
  ⟨⟨by decide, (C7_dim_heads_divisibility 4 2 1 1 0 false (by decide)).1⟩,
   by decide, by decide, by decide⟩

/-! ### Mask and PLR lemmas -/

theorem maskSelect_cons {α : Type} (a : α) (b : Bool) (x : List α) (m : List Bool) :
    maskSelect (a :: x) (b :: m) =
      if b then a :: maskSelect x m else maskSelect x m := by
  unfold maskSelect
  cases b <;> simp

theorem countTrue_cons (b : Bool) (m : List Bool) :
    countTrue (b :: m) = (if b then 1 else 0) + countTrue m := by
  unfold countTrue
  cases b <;> simp [List.countP_cons] <;> omega

theorem countTrue_le (m : List Bool) : countTrue m ≤ m.length :=
  List.countP_le_length _

theorem maskSelect_length {α : Type} :
    ∀ (x : List α) (m : List Bool), x.length = m.length →
      (maskSelect x m).length = countTrue m
  | [], [], _ => rfl
  | [], _ :: _, h => by simp at h
  | _ :: _, [], h => by simp at h
  | a :: x, b :: m, h => by
    have ih := maskSelect_length x m (by simpa using h)
    rw [maskSelect_cons, countTrue_cons]
    cases b <;> simp [ih] <;> omega

theorem notMask_length (m : List Bool) : (notMask m).length = m.length := by
  simp [notMask]

theorem countTrue_notMask (m : List Bool) :
    countTrue (notMask m) = m.length - countTrue m := by
  induction m with
  | nil => rfl
  | cons b m ih =>
    have hle := countTrue_le m
    rw [show notMask (b :: m) = (!b) :: notMask m from rfl, countTrue_cons, countTrue_cons, ih]
    cases b <;> simp <;> omega

theorem countTrue_append (m1 m2 : List Bool) :
    countTrue (m1 ++ m2) = countTrue m1 + countTrue m2 := by
  simp [countTrue, List.countP_append]

theorem countTrue_replicate_false (n : Nat) :
    countTrue (List.replicate n false) = 0 := by
  induction n with
  | zero => rfl
  | succ n ih =>
    rw [List.replicate_succ, countTrue_cons, ih]
    simp

theorem sum_map_const {α : Type} (l : List α) (c : Nat) :
    (l.map (fun _ => c)).sum = l.length * c := by
  induction l with
  | nil => simp
  | cons a l ih => simp [ih]; ring

theorem plr_forward_flatten_length (p : PLREmbeddings) (xs : List ℚ) :
    ((p.forward xs).flatten).length = xs.length * p.embedding_dim := by
  have hmap : (p.forward xs).map List.length =
      (List.range xs.length).map (fun _ => p.embedding_dim) := by
    unfold PLREmbeddings.forward
    rw [List.map_map]
    apply List.map_congr_left
    intro i _
    simp [Function.comp]
  rw [List.length_flatten, hmap, sum_map_const, List.length_range]

theorem masksDisjoint_cons (b1 b2 : Bool) (m1 m2 : List Bool) :
    masksDisjoint (b1 :: m1) (b2 :: m2) = ((!(b1 && b2)) && masksDisjoint m1 m2) := rfl

theorem countTrue_maskSelect_notMask_of_disjoint :
    ∀ (num past : List Bool), past.length = num.length →
      masksDisjoint num past = true →
      countTrue (maskSelect past (notMask num)) = countTrue past
  | [], [], _, _ => rfl
  | [], _ :: _, h, _ => by simp at h
  | _ :: _, [], h, _ => by simp at h
  | n :: num, p :: past, h, hd => by
    rw [masksDisjoint_cons] at hd
    rcases Bool.and_eq_true _ _ |>.mp hd with ⟨hnp, hd2⟩
    have ih := countTrue_maskSelect_notMask_of_disjoint num past (by simpa using h) hd2
    rw [show notMask (n :: num) = (!n) :: notMask num from rfl, maskSelect_cons]
    cases n with
    | false => simp [countTrue_cons, ih]
    | true =>
      have hp : p = false := by
        cases p
        · rfl
        · simp at hnp
      subst hp
      simp [countTrue_cons, ih]

theorem maskSelect_notMask_eq :
    ∀ (past num : List Bool), past.length = num.length →
      maskSelect past (notMask num) =
        ((List.range num.length).filter (fun i => ! num.getD i false)).map
          (fun i => past.getD i false)
  | [], [], _ => rfl
  | [], _ :: _, h => by simp at h
  | _ :: _, [], h => by simp at h
  | a :: past, b :: num, h => by
    have ih := maskSelect_notMask_eq past num (by simpa using h)
    have hps : ((fun i => !((b :: num).getD i false)) ∘ Nat.succ) =
        (fun i => !(num.getD i false)) := by
      funext i
      simp [Function.comp]
    have hfs : ((fun i => (a :: past).getD i false) ∘ Nat.succ) =
        (fun i => past.getD i false) := by
      funext i
      simp [Function.comp]
    have htail : (((List.range num.length).map Nat.succ).filter
          (fun i => !((b :: num).getD i false))).map
            (fun i => (a :: past).getD i false) = maskSelect past (notMask num) := by
      rw [List.filter_map, hps, List.map_map, hfs, ih]
    rw [show notMask (b :: num) = (!b) :: notMask num from rfl, maskSelect_cons,
      List.length_cons, List.range_succ_eq_map, List.filter_cons]
    cases b with
    | false =>
      rw [if_pos (show (!false) = true from rfl),
        if_pos (show (!((false :: num).getD 0 false)) = true from rfl), List.map_cons, htail]
      simp
    | true =>
      rw [if_neg (show ¬(!true) = true by simp),
        if_neg (show ¬(!((true :: num).getD 0 false)) = true by simp), htail]

/-! ### Features-preparator construction lemmas and claim theorems -/

theorem featPrep_init_ok_fields (a : FeatPrepArgs) (m : FeaturesPreparatorForDeepModels)
    (h : FeaturesPreparatorForDeepModels.init a = .ok m) :
    m.use_learnable_node_embeddings = a.use_learnable_node_embeddings ∧
    m.use_plr_for_num_features = a.use_plr_for_num_features ∧
    m.use_plr_for_past_targtes = a.use_plr_for_past_targets ∧
    m.num_features_mask = (if a.use_plr_for_num_features then a.num_features_mask else []) ∧
    m.past_targets_mask =
      (if a.use_plr_for_past_targets then
        (if a.use_plr_for_num_features then
          List.replicate (countTrue a.num_features_mask * a.plr_num_features_embedding_dim)
              false ++
            maskSelect a.past_targets_mask (notMask a.num_features_mask)
        else a.past_targets_mask)
      else []) ∧
    m.output_dim = (a.features_dim : Int) +
      (if a.use_learnable_node_embeddings then (a.learnable_node_embeddings_dim : Int) else 0) +
      (if a.use_plr_for_num_features then
        (countTrue a.num_features_mask : Int) * (a.plr_num_features_embedding_dim : Int) -
          (countTrue a.num_features_mask : Int) else 0) +
      (if a.use_plr_for_past_targets then
        (countTrue a.past_targets_mask : Int) * (a.plr_past_targets_embedding_dim : Int) -
          (countTrue a.past_targets_mask : Int) else 0) ∧
    (a.use_plr_for_num_features = true →
      (m.plr_embeddings_num_features.getD default).embedding_dim =
        a.plr_num_features_embedding_dim) ∧
    (a.use_plr_for_past_targets = true →
      (m.plr_embeddings_past_targets.getD default).embedding_dim =
        a.plr_past_targets_embedding_dim) ∧
    (a.use_learnable_node_embeddings = true →
      (m.node_embeddings.getD default).cols = a.learnable_node_embeddings_dim) := by
  unfold FeaturesPreparatorForDeepModels.init at h
  split at h
  next => exact absurd h (by simp)
  next hg =>
    simp only [Except.ok.injEq] at h
    subst h
    refine ⟨rfl, rfl, rfl, rfl, rfl, ?_, ?_, ?_, ?_⟩
    · cases hemb : a.use_learnable_node_embeddings <;>
        cases hnum : a.use_plr_for_num_features <;>
          cases hpast : a.use_plr_for_past_targets <;>
            simp [hemb, hnum, hpast] <;> ring
    · intro hn
      simp [hn]
    · intro hp
      simp [hp]
    · intro he
      cases hdw : a.initialize_learnable_node_embeddings_with_deepwalk with
      | false => simp [he, hdw, freshEmbedding]
      | true =>
        have hne : ¬(a.learnable_node_embeddings_dim ≠ a.deepwalk_node_embeddings.cols) :=
          fun hne => hg ⟨he, hdw, hne⟩
        have heq := not_not.mp hne
        simp [he, hdw, heq]

/-- C8: with learnable node embeddings and DeepWalk initialization both
enabled, construction raises the `ValueError` exactly when
`learnable_node_embeddings_dim` differs from the second dimension of the
precomputed DeepWalk matrix, and on a match it succeeds with the embeddings
initialized from that matrix. -/
theorem C8_deepwalk_dim_check (a : FeatPrepArgs)
    (hemb : a.use_learnable_node_embeddings = true)
    (hdw : a.initialize_learnable_node_embeddings_with_deepwalk = true) :
    (a.learnable_node_embeddings_dim ≠ a.deepwalk_node_embeddings.cols →
      FeaturesPreparatorForDeepModels.init a = .error deepwalkDimMismatchMsg) ∧
    (a.learnable_node_embeddings_dim = a.deepwalk_node_embeddings.cols →
      (FeaturesPreparatorForDeepModels.init a).map (fun m => m.node_embeddings) =
        .ok (some a.deepwalk_node_embeddings)) := by
  constructor
  · intro hne
    unfold FeaturesPreparatorForDeepModels.init
    rw [if_pos ⟨hemb, hdw, hne⟩]
  · intro heq
    unfold FeaturesPreparatorForDeepModels.init
    rw [if_neg (by simp [heq])]
    simp [Except.map, hemb, hdw]

/-- Witness for C8: embedding dim 3 against a DeepWalk matrix of width 4
raises the mismatch error. -/
theorem C8_deepwalk_dim_check_witness :
    FeaturesPreparatorForDeepModels.init featPrepC8Args = .error deepwalkDimMismatchMsg :=
  (C8_deepwalk_dim_check featPrepC8Args rfl rfl).1 (by decide)

/-- C4: with both PLR transforms enabled and disjoint masks, the stored
past-target mask lives in the post-step-1 layout: it has length
`k * e + (F - k)`, is `false` on the whole embedded-numeric block, its tail
lists the original past-target mask restricted to the non-numeric columns
in original order, and its `true` count equals that of the original mask. -/
theorem C4_shifted_past_targets_mask (a : FeatPrepArgs) (m : FeaturesPreparatorForDeepModels)
    (h : FeaturesPreparatorForDeepModels.init a = .ok m)
    (hnumF : a.use_plr_for_num_features = true)
    (hpastF : a.use_plr_for_past_targets = true)
    (hnumlen : a.num_features_mask.length = a.features_dim)
    (hpastlen : a.past_targets_mask.length = a.features_dim)
    (hdisj : masksDisjoint a.num_features_mask a.past_targets_mask = true) :
    m.past_targets_mask.length =
      countTrue a.num_features_mask * a.plr_num_features_embedding_dim +
        (a.features_dim - countTrue a.num_features_mask) ∧
    (∀ i, i < countTrue a.num_features_mask * a.plr_num_features_embedding_dim →
      m.past_targets_mask.getD i false = false) ∧
    m.past_targets_mask.drop
        (countTrue a.num_features_mask * a.plr_num_features_embedding_dim) =
      ((List.range a.features_dim).filter (fun i => ! a.num_features_mask.getD i false)).map
        (fun i => a.past_targets_mask.getD i false) ∧
    countTrue m.past_targets_mask = countTrue a.past_targets_mask := by
  have hmask := (featPrep_init_ok_fields a m h).2.2.2.2.1
  rw [hnumF, hpastF] at hmask
  simp only [eq_self_iff_true, if_true] at hmask
  have hlen2 : a.past_targets_mask.length = (notMask a.num_features_mask).length := by
    rw [notMask_length, hnumlen, hpastlen]
  refine ⟨?_, ?_, ?_, ?_⟩
  · rw [hmask, List.length_append, List.length_replicate,
      maskSelect_length _ _ hlen2, countTrue_notMask, hnumlen]
  · intro i hi
    rw [hmask, List.getD_append _ _ _ _ (by rw [List.length_replicate]; exact hi),
      getD_replicate' _ _ _ _ hi]
  · rw [hmask, List.drop_left' (List.length_replicate _ _),
      maskSelect_notMask_eq a.past_targets_mask a.num_features_mask
        (hpastlen.trans hnumlen.symm),
      hnumlen]
  · rw [hmask, countTrue_append, countTrue_replicate_false,
      countTrue_maskSelect_notMask_of_disjoint a.num_features_mask a.past_targets_mask
        (hpastlen.trans hnumlen.symm) hdisj]
    omega

/-- Witness for C4 at the concrete disjoint configuration
`num_features_mask = [true, false]`, `past_targets_mask = [false, true]`. -/
theorem C4_shifted_past_targets_mask_witness :
    FeaturesPreparatorForDeepModels.init featPrepC4Args = .ok featPrepC4State ∧
    featPrepC4State.past_targets_mask.length =
      countTrue featPrepC4Args.num_features_mask *
          featPrepC4Args.plr_num_features_embedding_dim +
        (featPrepC4Args.features_dim - countTrue featPrepC4Args.num_features_mask) ∧
    featPrepC4State.past_targets_mask.drop
        (countTrue featPrepC4Args.num_features_mask *
          featPrepC4Args.plr_num_features_embedding_dim) =
      ((List.range featPrepC4Args.features_dim).filter
          (fun i => ! featPrepC4Args.num_features_mask.getD i false)).map
        (fun i => featPrepC4Args.past_targets_mask.getD i false) :=
  ⟨rfl,
   (C4_shifted_past_targets_mask featPrepC4Args featPrepC4State rfl rfl rfl rfl rfl
      (by decide)).1,
   (C4_shifted_past_targets_mask featPrepC4Args featPrepC4State rfl rfl rfl rfl rfl
      (by decide)).2.2.1⟩

theorem tensor2_row_length (t : Tensor2) (v : Nat) : (t.row v).length = t.cols := by
  simp [Tensor2.row]

theorem plr_step_length (plr : PLREmbeddings) (x : List ℚ) (mask : List Bool)
    (hlen : x.length = mask.length) :
    ((plr.forward (maskSelect x mask)).flatten ++ maskSelect x (notMask mask)).length =
      countTrue mask * plr.embedding_dim + (mask.length - countTrue mask) := by
  rw [List.length_append, plr_forward_flatten_length, maskSelect_length _ _ hlen,
    maskSelect_length _ _ (by rw [notMask_length]; exact hlen), countTrue_notMask]

/-- C3 (amended): `output_dim` is `features_dim`, plus
`learnable_node_embeddings_dim` when node embeddings are on, minus `k` plus
`k*e` when numeric PLR is on, minus `p` plus `p*e'` when past-target PLR is
on; and — provided the two masks are disjoint whenever both PLR transforms
are enabled — the width of `forward`'s output equals `output_dim`. -/
theorem C3_featprep_output_dim (a : FeatPrepArgs) (m : FeaturesPreparatorForDeepModels)
    (x : List ℚ) (node : Nat)
    (h : FeaturesPreparatorForDeepModels.init a = .ok m)
    (hnumlen : a.num_features_mask.length = a.features_dim)
    (hpastlen : a.past_targets_mask.length = a.features_dim)
    (hx : x.length = a.features_dim) :
    m.output_dim = (a.features_dim : Int) +
      (if a.use_learnable_node_embeddings then (a.learnable_node_embeddings_dim : Int) else 0) +
      (if a.use_plr_for_num_features then
        (countTrue a.num_features_mask : Int) * (a.plr_num_features_embedding_dim : Int) -
          (countTrue a.num_features_mask : Int) else 0) +
      (if a.use_plr_for_past_targets then
        (countTrue a.past_targets_mask : Int) * (a.plr_past_targets_embedding_dim : Int) -
          (countTrue a.past_targets_mask : Int) else 0) ∧
    ((a.use_plr_for_num_features = true → a.use_plr_for_past_targets = true →
        masksDisjoint a.num_features_mask a.past_targets_mask = true) →
      ((m.forward x node).length : Int) = m.output_dim) := by
  obtain ⟨hembf, hnumf, hpastf, hnmask, hpmask, hod, hplrnum, hplrpast, hnecols⟩ :=
    featPrep_init_ok_fields a m h
  refine ⟨hod, ?_⟩
  intro hdisj
  rw [hod]
  unfold FeaturesPreparatorForDeepModels.forward
  rw [hnumf, hpastf, hembf]
  have hkF : countTrue a.num_features_mask ≤ a.features_dim :=
    hnumlen ▸ countTrue_le a.num_features_mask
  have hpF : countTrue a.past_targets_mask ≤ a.features_dim :=
    hpastlen ▸ countTrue_le a.past_targets_mask
  have hxm : x.length = a.num_features_mask.length := by rw [hx, hnumlen]
  cases hnum : a.use_plr_for_num_features with
  | false =>
    simp only [hnum, Bool.false_eq_true, eq_self_iff_true, if_true, if_false] at hpmask ⊢
    cases hpast : a.use_plr_for_past_targets with
    | false =>
      simp only [hpast, Bool.false_eq_true, eq_self_iff_true, if_true, if_false] at hpmask ⊢
      cases hemb : a.use_learnable_node_embeddings with
      | false =>
        simp only [hemb, Bool.false_eq_true, eq_self_iff_true, if_true, if_false]
        rw [hx]
        ring
      | true =>
        simp only [hemb, Bool.false_eq_true, eq_self_iff_true, if_true, if_false]
        rw [List.length_append, hx, tensor2_row_length, hnecols hemb]
        push_cast
        ring
    | true =>
      simp only [hpast, Bool.false_eq_true, eq_self_iff_true, if_true, if_false] at hpmask ⊢
      rw [hpmask]
      have h2 := plr_step_length (m.plr_embeddings_past_targets.getD default) x
        a.past_targets_mask (by rw [hx, hpastlen])
      cases hemb : a.use_learnable_node_embeddings with
      | false =>
        simp only [hemb, Bool.false_eq_true, eq_self_iff_true, if_true, if_false]
        rw [h2, hplrpast hpast, hpastlen]
        rw [Nat.cast_add, Nat.cast_sub hpF]
        push_cast
        ring
      | true =>
        simp only [hemb, Bool.false_eq_true, eq_self_iff_true, if_true, if_false]
        rw [List.length_append, h2, hplrpast hpast, hpastlen, tensor2_row_length,
          hnecols hemb]
        rw [Nat.cast_add, Nat.cast_add, Nat.cast_sub hpF]
        push_cast
        ring
  | true =>
    simp only [hnum, Bool.false_eq_true, eq_self_iff_true, if_true, if_false] at hnmask ⊢
    simp only [hnum, Bool.false_eq_true, eq_self_iff_true, if_true, if_false] at hpmask
    rw [hnmask]
    have h1 := plr_step_length (m.plr_embeddings_num_features.getD default) x
      a.num_features_mask hxm
    cases hpast : a.use_plr_for_past_targets with
    | false =>
      simp only [hpast, Bool.false_eq_true, eq_self_iff_true, if_true, if_false] at hpmask ⊢
      cases hemb : a.use_learnable_node_embeddings with
      | false =>
        simp only [hemb, Bool.false_eq_true, eq_self_iff_true, if_true, if_false]
        rw [h1, hplrnum hnum, hnumlen]
        rw [Nat.cast_add, Nat.cast_sub hkF]
        push_cast
        ring
      | true =>
        simp only [hemb, Bool.false_eq_true, eq_self_iff_true, if_true, if_false]
        rw [List.length_append, h1, hplrnum hnum, hnumlen, tensor2_row_length, hnecols hemb]
        rw [Nat.cast_add, Nat.cast_add, Nat.cast_sub hkF]
        push_cast
        ring
    | true =>
      simp only [hpast, Bool.false_eq_true, eq_self_iff_true, if_true, if_false] at hpmask ⊢
      rw [hpmask]
      have hslen : (List.replicate
            (countTrue a.num_features_mask * a.plr_num_features_embedding_dim) false ++
          maskSelect a.past_targets_mask (notMask a.num_features_mask)).length =
          countTrue a.num_features_mask * a.plr_num_features_embedding_dim +
            (a.features_dim - countTrue a.num_features_mask) := by
        rw [List.length_append, List.length_replicate,
          maskSelect_length _ _ (by rw [hpastlen, notMask_length, hnumlen]),
          countTrue_notMask, hnumlen]
      have hcnts : countTrue (List.replicate
            (countTrue a.num_features_mask * a.plr_num_features_embedding_dim) false ++
          maskSelect a.past_targets_mask (notMask a.num_features_mask)) =
          countTrue a.past_targets_mask := by
        rw [countTrue_append, countTrue_replicate_false,
          countTrue_maskSelect_notMask_of_disjoint a.num_features_mask a.past_targets_mask
            (hpastlen.trans hnumlen.symm) (hdisj hnum hpast)]
        omega
      have hx1len : (((m.plr_embeddings_num_features.getD default).forward
            (maskSelect x a.num_features_mask)).flatten ++
          maskSelect x (notMask a.num_features_mask)).length =
          (List.replicate
            (countTrue a.num_features_mask * a.plr_num_features_embedding_dim) false ++
          maskSelect a.past_targets_mask (notMask a.num_features_mask)).length := by
        rw [h1, hplrnum hnum, hnumlen, hslen]
      have h2 := plr_step_length (m.plr_embeddings_past_targets.getD default)
        (((m.plr_embeddings_num_features.getD default).forward
            (maskSelect x a.num_features_mask)).flatten ++
          maskSelect x (notMask a.num_features_mask))
        (List.replicate
            (countTrue a.num_features_mask * a.plr_num_features_embedding_dim) false ++
          maskSelect a.past_targets_mask (notMask a.num_features_mask))
        hx1len
      have hple : countTrue a.past_targets_mask ≤
          countTrue a.num_features_mask * a.plr_num_features_embedding_dim +
            (a.features_dim - countTrue a.num_features_mask) := by
        have hb := countTrue_le (List.replicate
            (countTrue a.num_features_mask * a.plr_num_features_embedding_dim) false ++
          maskSelect a.past_targets_mask (notMask a.num_features_mask))
        rw [hcnts, hslen] at hb
        exact hb
      cases hemb : a.use_learnable_node_embeddings with
      | false =>
        simp only [hemb, Bool.false_eq_true, eq_self_iff_true, if_true, if_false]
        rw [h2, hcnts, hslen, hplrpast hpast]
        rw [Nat.cast_add, Nat.cast_sub hple, Nat.cast_add, Nat.cast_sub hkF]
        push_cast
        ring
      | true =>
        simp only [hemb, Bool.false_eq_true, eq_self_iff_true, if_true, if_false]
        rw [List.length_append, h2, hcnts, hslen, hplrpast hpast, tensor2_row_length,
          hnecols hemb]
        rw [Nat.cast_add, Nat.cast_add, Nat.cast_sub hple, Nat.cast_add, Nat.cast_sub hkF]
        push_cast
        ring

/-- C3 counterexample: with overlapping masks (`num_features_mask =
past_targets_mask = [true]`, numeric embedding dim 1, past-target embedding
dim 2) construction succeeds with `output_dim = 2`, but the forward output
has width 1: the overlapping column was dropped from the shifted past mask,
so the class of inputs the claim quantifies over violates it. -/
theorem C3_output_dim_forward_counterexample :
    (FeaturesPreparatorForDeepModels.init featPrepOverlapArgs).map
      (fun m => decide (((m.forward [5] 0).length : Int) = m.output_dim)) =
      .ok false := by
  rfl

/-- Witness for the amended C3 at a numeric-PLR-only configuration
(`features_dim = 2`, one numeric column, embedding dim 3): `output_dim = 4`
and the forward width matches. -/
theorem C3_featprep_output_dim_witness :
    FeaturesPreparatorForDeepModels.init featPrepC3Args = .ok featPrepC3State ∧
    featPrepC3State.output_dim = (featPrepC3Args.features_dim : Int) +
      (if featPrepC3Args.use_learnable_node_embeddings then
        (featPrepC3Args.learnable_node_embeddings_dim : Int) else 0) +
      (if featPrepC3Args.use_plr_for_num_features then
        (countTrue featPrepC3Args.num_features_mask : Int) *
            (featPrepC3Args.plr_num_features_embedding_dim : Int) -
          (countTrue featPrepC3Args.num_features_mask : Int) else 0) +
      (if featPrepC3Args.use_plr_for_past_targets then
        (countTrue featPrepC3Args.past_targets_mask : Int) *
            (featPrepC3Args.plr_past_targets_embedding_dim : Int) -
          (countTrue featPrepC3Args.past_targets_mask : Int) else 0) ∧
    ((featPrepC3State.forward [5, 7] 0).length : Int) = featPrepC3State.output_dim ∧
    featPrepC3State.output_dim = 4 :=
  ⟨rfl,
   (C3_featprep_output_dim featPrepC3Args featPrepC3State [5, 7] 0 rfl rfl rfl rfl).1,
   (C3_featprep_output_dim featPrepC3Args featPrepC3State [5, 7] 0 rfl rfl rfl rfl).2
     (fun _ hp => absurd hp (by decide)),
   by decide⟩
